import Mathlib

/-!
# Verification of the mutfs write-denial decision engine

Shallow embedding of the mutfs overlay filesystem (Go).  The embedded code
is the latest revision of the repository (the revision with the `grace=`
option, `btime`, and the per-path creation-time check).  Timestamps and
durations are modelled as `Int` nanoseconds, matching Go's `time.Duration`
and `time.Time` comparisons.  The backing store is modelled as an
association list from backing paths to file records (content bytes plus
the birth timestamp reported by `statx`).

Handlers that can log are embedded as `Except Crash _` because the Go
`deny` discards the `ok` result of `fuse.FromContext` and dereferences the
possibly-nil caller inside `log.Printf`; `Crash.nilDeref` marks that nil
pointer dereference (a Go panic).
-/

/-- Subset of `syscall.Errno` values the embedded handlers produce.
`ok` is `fs.OK` (0). -/
inductive Errno where
  | ok
  | eacces
  | enoent
  deriving DecidableEq, Repr

/-- A Go runtime panic reachable from the embedded code:
dereferencing the nil `*fuse.Caller` inside `log.Printf`. -/
inductive Crash where
  | nilDeref
  deriving DecidableEq, Repr

/-- `fuse.Caller`: process id and owner uid/gid, used only for logging. -/
structure Caller where
  pid : Int
  uid : Int
  gid : Int
  deriving DecidableEq, Repr

/-- One object in the backing store: its content bytes and the birth
(creation) timestamp the host's `statx` reports for it (nanoseconds). -/
structure FileRec where
  content : List Nat
  btime : Int
  deriving DecidableEq, Repr

/-- The backing store: a finite map from backing paths to file records,
as an association list. -/
abbrev Store := List (String × FileRec)

/-- Association-list lookup. -/
def Store.find : Store → String → Option FileRec
  | [], _ => none
  | (q, r) :: rest, p => if q = p then some r else Store.find rest p

/-- Insert or replace the record at a path. -/
def Store.set : Store → String → FileRec → Store
  | [], p, v => [(p, v)]
  | (q, r) :: rest, p, v =>
      if q = p then (p, v) :: rest else (q, r) :: Store.set rest p v

/-- Remove the record at a path. -/
def Store.erase : Store → String → Store
  | [], _ => []
  | (q, r) :: rest, p => if q = p then rest else (q, r) :: Store.erase rest p

/-- The creation-time oracle over the modelled store: the `btime` call of
`deny` succeeds with the object's birth timestamp exactly when the object
exists (any lookup error collapses to `none`). -/
def Store.btime (st : Store) (p : String) : Option Int :=
  (Store.find st p).map FileRec.btime

/-- `filepath.Join` restricted to the shapes the embedded code uses:
joining a node path with a child name, where `filepath.Join(p, "") = p`.
Root-data prefixes are absorbed into the path strings. -/
def pathJoin (a b : String) : String :=
  if b = "" then a else a ++ "/" ++ b

/-- Linux `syscall.O_CREAT` (0o100). -/
def O_CREAT : Nat := 64
/-- Linux `syscall.O_APPEND` (0o2000). -/
def O_APPEND : Nat := 1024
/-- Linux `syscall.O_WRONLY`. -/
def O_WRONLY : Nat := 1
/-- Linux `syscall.O_TRUNC` (0o1000). -/
def O_TRUNC : Nat := 512
/-- Linux `syscall.O_RDWR`. -/
def O_RDWR : Nat := 2
/-- Linux `syscall.O_RDONLY`. -/
def O_RDONLY : Nat := 0

/-- Modelled from the spec: the Passthrough Backing Filesystem's open
(`fs.LoopbackNode.Open`, dependency code not under `src/`), which
"performs the actual I/O": POSIX `open(path, flags)` on the backing
store.  An existing object opens successfully, `O_TRUNC` truncating its
content; a missing object is created empty when `O_CREAT` is set (its
birth time becomes `now`), and otherwise the open fails with `ENOENT`. -/
def loopbackOpen (st : Store) (p : String) (flags : Nat) (now : Int) :
    Errno × Store :=
  match Store.find st p with
  | some r =>
      if flags &&& O_TRUNC ≠ 0 then
        (Errno.ok, Store.set st p { r with content := [] })
      else (Errno.ok, st)
  | none =>
      if flags &&& O_CREAT ≠ 0 then
        (Errno.ok, Store.set st p { content := [], btime := now })
      else (Errno.enoent, st)

/-- Modelled from the spec: the Passthrough Backing Filesystem's unlink
(`fs.LoopbackNode.Unlink`, dependency code not under `src/`): removes an
existing object, fails with `ENOENT` otherwise. -/
def loopbackUnlink (st : Store) (p : String) : Errno × Store :=
  match Store.find st p with
  | some _ => (Errno.ok, Store.erase st p)
  | none => (Errno.enoent, st)

/-- Modelled from the spec: the Passthrough Backing Filesystem's rename
(`fs.LoopbackNode.Rename`, dependency code not under `src/`): moves an
existing object to the destination path, fails with `ENOENT` otherwise. -/
def loopbackRename (st : Store) (src dst : String) : Errno × Store :=
  match Store.find st src with
  | none => (Errno.enoent, st)
  | some r => (Errno.ok, Store.set (Store.erase st src) dst r)

/-- The body of `MutNode.deny` after the `btime(actualPath)` call.
`btimeRes` is the oracle result, `now - bt` is Go's `time.Since(bt)`,
`grace` is the global `Grace`, `log` the global `Log`.  The Go code reads
`caller, _ := fuse.FromContext(ctx)` — discarding the `ok` flag — and each
`log.Printf` dereferences `caller.Pid`, which panics when the context
carries no caller; that panic is `Crash.nilDeref`. -/
def MutNode.denyCore (btimeRes : Option Int) (now grace : Int)
    (log : Bool) (caller : Option Caller) : Except Crash Errno :=
  let deniedTail : Except Crash Errno :=
    if log then
      match caller with
      | none => Except.error Crash.nilDeref
      | some _ => Except.ok Errno.eacces
    else Except.ok Errno.eacces
  match btimeRes with
  | some bt =>
      if now - bt < grace then
        if log then
          match caller with
          | none => Except.error Crash.nilDeref
          | some _ => Except.ok Errno.ok
        else Except.ok Errno.ok
      else deniedTail
  | none => deniedTail

/-- `MutNode.deny`: computes `actualPath` by joining the node's backing
path with `name` and consults the creation-time oracle there. -/
def MutNode.deny (st : Store) (nodePath name : String) (now grace : Int)
    (log : Bool) (caller : Option Caller) : Except Crash Errno :=
  MutNode.denyCore (Store.btime st (pathJoin nodePath name)) now grace log caller

/-- `MutNode.Unlink`: gate on `deny(ctx, name)` (anchored at the target
entry), then forward to the backing unlink. -/
def MutNode.Unlink (st : Store) (parentPath name : String) (now grace : Int)
    (log : Bool) (caller : Option Caller) : Except Crash (Errno × Store) :=
  match MutNode.deny st parentPath name now grace log caller with
  | Except.error c => Except.error c
  | Except.ok e =>
      if e = Errno.ok then Except.ok (loopbackUnlink st (pathJoin parentPath name))
      else Except.ok (e, st)

/-- `MutNode.Rmdir`: gate on `deny(ctx, name)`, then forward to the
backing rmdir (modelled like unlink: the entry is removed). -/
def MutNode.Rmdir (st : Store) (parentPath name : String) (now grace : Int)
    (log : Bool) (caller : Option Caller) : Except Crash (Errno × Store) :=
  match MutNode.deny st parentPath name now grace log caller with
  | Except.error c => Except.error c
  | Except.ok e =>
      if e = Errno.ok then Except.ok (loopbackUnlink st (pathJoin parentPath name))
      else Except.ok (e, st)

/-- `MutNode.Rename`: the Go code gates on `deny(ctx, "")` — the empty
name — so the creation-time oracle is consulted at
`filepath.Join(parentPath, "")`, i.e. at the parent directory node the
rename runs on, not at the renamed entry. -/
def MutNode.Rename (st : Store) (parentPath name newParentPath newName : String)
    (now grace : Int) (log : Bool) (caller : Option Caller) :
    Except Crash (Errno × Store) :=
  match MutNode.deny st parentPath "" now grace log caller with
  | Except.error c => Except.error c
  | Except.ok e =>
      if e = Errno.ok then
        Except.ok (loopbackRename st (pathJoin parentPath name)
          (pathJoin newParentPath newName))
      else Except.ok (e, st)

/-- The write-intent test of the Go `switch` in `MutNode.Open`:
`O_APPEND`, `O_WRONLY`, `O_TRUNC` and `O_RDWR` all fall through to the
same deny gate. -/
def writeIntent (flags : Nat) : Bool :=
  flags &&& O_APPEND != 0 || flags &&& O_WRONLY != 0 ||
    flags &&& O_TRUNC != 0 || flags &&& O_RDWR != 0

/-- The part of `MutNode.Open` after the `O_CREAT` probe: the
write-intent switch (`O_APPEND`/`O_WRONLY`/`O_TRUNC`/`O_RDWR` go through
`deny(ctx, "")`), then the `flags &^ 0x8000` mask and the read-only
fallthrough.  On a uint32, Go's `flags &^ 0x8000` is
`flags &&& 0xFFFF7FFF`. -/
def MutNode.openSwitch (st : Store) (selfPath : String) (flags : Nat)
    (now grace : Int) (log : Bool) (caller : Option Caller) :
    Except Crash (Errno × Store) :=
  if writeIntent flags then
    match MutNode.deny st selfPath "" now grace log caller with
    | Except.error c => Except.error c
    | Except.ok e =>
        if e = Errno.ok then Except.ok (loopbackOpen st selfPath flags now)
        else Except.ok (e, st)
  else
    let flags2 := flags &&& 0xFFFF7FFF
    if flags2 = O_RDONLY then Except.ok (loopbackOpen st selfPath flags2 now)
    else Except.ok (Errno.eacces, st)

/-- `MutNode.Open`: when `O_CREAT` is set the code first probes the
backing open with the caller's original flags (side effects included) and
returns early only when that probe reports `ENOENT`; otherwise it falls
through to the write-intent switch on the probed store. -/
def MutNode.Open (st : Store) (selfPath : String) (flags : Nat)
    (now grace : Int) (log : Bool) (caller : Option Caller) :
    Except Crash (Errno × Store) :=
  if flags &&& O_CREAT ≠ 0 then
    let probe := loopbackOpen st selfPath flags now
    if probe.fst = Errno.enoent then Except.ok (Errno.enoent, probe.snd)
    else MutNode.openSwitch probe.snd selfPath flags now grace log caller
  else
    MutNode.openSwitch st selfPath flags now grace log caller

/-- The handler cannot hit the nil-caller dereference: logging is off, or
the request context carries a caller identity. -/
def logSafe (log : Bool) (caller : Option Caller) : Prop :=
  log = true → caller ≠ none

/-! ## Helper lemmas about the decision core -/

lemma denyCore_allow (now grace bt : Int) (log : Bool) (caller : Option Caller)
    (hsafe : logSafe log caller) (h : now - bt < grace) :
    MutNode.denyCore (some bt) now grace log caller = Except.ok Errno.ok := by
  cases log with
  | false => simp [MutNode.denyCore, h]
  | true =>
      cases caller with
      | none => exact absurd rfl (hsafe rfl)
      | some c => simp [MutNode.denyCore, h]

lemma denyCore_deny (now grace bt : Int) (log : Bool) (caller : Option Caller)
    (hsafe : logSafe log caller) (h : ¬ now - bt < grace) :
    MutNode.denyCore (some bt) now grace log caller = Except.ok Errno.eacces := by
  cases log with
  | false => simp [MutNode.denyCore, h]
  | true =>
      cases caller with
      | none => exact absurd rfl (hsafe rfl)
      | some c => simp [MutNode.denyCore, h]

lemma denyCore_none (now grace : Int) (log : Bool) (caller : Option Caller)
    (hsafe : logSafe log caller) :
    MutNode.denyCore none now grace log caller = Except.ok Errno.eacces := by
  cases log with
  | false => simp [MutNode.denyCore]
  | true =>
      cases caller with
      | none => exact absurd rfl (hsafe rfl)
      | some c => simp [MutNode.denyCore]

/-! ## C1: grace boundary -/

/-- C1: for a destructive operation whose creation-time lookup succeeds
with birth time `bt`, elapsed time `e = now - bt` and configured grace
`grace`, the decision returns Allow (`fs.OK`) iff `e < grace`; outside
the window — in particular at `e = grace` exactly — it returns Deny
(`EACCES`), a half-open window. -/
theorem c1_grace_boundary (st : Store) (nodePath name : String)
    (bt now grace : Int) (log : Bool) (caller : Option Caller)
    (hsafe : logSafe log caller)
    (hbt : Store.btime st (pathJoin nodePath name) = some bt) :
    (MutNode.deny st nodePath name now grace log caller = Except.ok Errno.ok ↔
      now - bt < grace) ∧
    (¬ now - bt < grace →
      MutNode.deny st nodePath name now grace log caller = Except.ok Errno.eacces) ∧
    (now - bt = grace →
      MutNode.deny st nodePath name now grace log caller = Except.ok Errno.eacces) := by
  unfold MutNode.deny
  rw [hbt]
  refine ⟨⟨fun h => ?_, fun h => denyCore_allow now grace bt log caller hsafe h⟩,
    fun h => denyCore_deny now grace bt log caller hsafe h,
    fun h => denyCore_deny now grace bt log caller hsafe (by omega)⟩
  by_contra hlt
  rw [denyCore_deny now grace bt log caller hsafe hlt] at h
  exact Errno.noConfusion (Except.ok.inj h)

/-- Witness for C1 at a concrete input: grace 5, birth time 0, now 3
(within the window, Allow) — and the boundary case now 5 (Deny). -/
theorem c1_grace_boundary_witness :
    MutNode.deny [("f", ⟨[], 0⟩)] "f" "" 3 5 false none = Except.ok Errno.ok ∧
    MutNode.deny [("f", ⟨[], 0⟩)] "f" "" 5 5 false none = Except.ok Errno.eacces := by
  constructor
  · exact (c1_grace_boundary [("f", ⟨[], 0⟩)] "f" "" 0 3 5 false none
      (by intro h; simp at h) (by decide)).1.mpr (by decide)
  · exact (c1_grace_boundary [("f", ⟨[], 0⟩)] "f" "" 0 5 5 false none
      (by intro h; simp at h) (by decide)).2.2 (by decide)

/-! ## C2: fail closed on missing timestamp -/

/-- C2: when the creation-time lookup reports Unavailable (any lookup
error collapses to `none`), the verdict is Deny (`EACCES`), regardless of
the configured grace period. -/
theorem c2_fail_closed (st : Store) (nodePath name : String)
    (now grace : Int) (log : Bool) (caller : Option Caller)
    (hsafe : logSafe log caller)
    (hbt : Store.btime st (pathJoin nodePath name) = none) :
    MutNode.deny st nodePath name now grace log caller = Except.ok Errno.eacces := by
  unfold MutNode.deny
  rw [hbt]
  exact denyCore_none now grace log caller hsafe

/-- Witness for C2: empty store (lookup fails), huge grace — still Deny. -/
theorem c2_fail_closed_witness :
    MutNode.deny [] "f" "" 0 1000000000 false none = Except.ok Errno.eacces :=
  c2_fail_closed [] "f" "" 0 1000000000 false none
    (by intro h; simp at h) (by decide)

/-! ## Store lemmas -/

lemma Store.find_set_self (st : Store) (p : String) (v : FileRec) :
    Store.find (Store.set st p v) p = some v := by
  induction st with
  | nil => simp [Store.set, Store.find]
  | cons hd rest ih =>
      obtain ⟨q, r⟩ := hd
      by_cases h : q = p
      · simp [Store.set, Store.find, h]
      · simp [Store.set, Store.find, h, ih]

lemma Store.btime_set_self (st : Store) (p : String) (v : FileRec) :
    Store.btime (Store.set st p v) p = some v.btime := by
  simp [Store.btime, Store.find_set_self]

/-! ## C7: the decision path can crash on a caller-less context -/

/-- C7 is violated: with logging enabled and a request context that
carries no caller identity, `deny` dereferences the nil `*fuse.Caller`
inside `log.Printf` and panics, instead of producing Allow or `EACCES` —
both on the fail-closed path (empty store, birth-time lookup fails) and
on the within-grace path (object born at 0, now 0, grace 5). -/
theorem c7_nil_caller_crash :
    MutNode.deny [] "f" "" 0 0 true none = Except.error Crash.nilDeref ∧
    MutNode.deny [("f", ⟨[], 0⟩)] "f" "" 0 5 true none = Except.error Crash.nilDeref :=
  ⟨rfl, rfl⟩

/-! ## C4: a denied destructive open mutates the backing store -/

/-- C4 is violated: `open("a", O_CREAT|O_TRUNC|O_WRONLY)` (flags 577) on
an existing file `"a"` with content `[49]` and grace 0 returns `EACCES`
(the verdict is Deny), yet the backing store is not byte-for-byte
unchanged: the `O_CREAT` probe already truncated `"a"` to empty content
before the deny decision was taken. -/
theorem c4_denied_open_truncates :
    MutNode.Open [("a", ⟨[49], 0⟩)] "a" 577 10 0 false none =
      Except.ok (Errno.eacces, [("a", ⟨[], 0⟩)]) ∧
    [("a", (⟨[], 0⟩ : FileRec))] ≠ [("a", (⟨[49], 0⟩ : FileRec))] :=
  ⟨rfl, by decide⟩

/-! ## C5: create exemption -/

/-- Counterexample to C5 as stated: with grace 0 (the default), an open
that carries the create flag (`O_CREAT|O_WRONLY`, flags 65) on a path
absent from the backing store does NOT succeed — the probe creates the
empty object, and the write-intent switch then denies with `EACCES`
because elapsed time 0 is not `< 0`. -/
theorem c5_create_denied_counterexample :
    Store.find [] "a" = none ∧
    MutNode.Open [] "a" 65 10 0 false none =
      Except.ok (Errno.eacces, [("a", ⟨[], 10⟩)]) :=
  ⟨rfl, rfl⟩

/-! ## C6: per-object anchoring of the grace window -/

/-- Counterexample to C6 as stated: renaming entry `"d/x"` (born at 0,
elapsed 102, far outside grace 5) is nevertheless ALLOWED and forwarded,
because `Rename` calls `deny(ctx, "")` and therefore consults the
creation time of the parent directory `"d"` (born at 100, elapsed 2,
within grace) — not the creation time of the renamed entry. -/
theorem c6_rename_parent_anchor_counterexample :
    Store.btime [("d", ⟨[], 100⟩), ("d/x", ⟨[49], 0⟩)] "d/x" = some 0 ∧
    ¬ ((102 : Int) - 0 < 5) ∧
    MutNode.Rename [("d", ⟨[], 100⟩), ("d/x", ⟨[49], 0⟩)] "d" "x" "d" "y"
        102 5 false none =
      Except.ok (Errno.ok, [("d", ⟨[], 100⟩), ("d/y", ⟨[49], 0⟩)]) :=
  ⟨rfl, by decide, rfl⟩

/-- C6 amended: the grace window is anchored at the creation time of the
node the handler runs on.  For `Unlink` that is the target entry itself
(`deny(ctx, name)`), but for `Rename` it is the parent directory node
(`deny(ctx, "")`) — not the renamed entry. -/
theorem c6_amended_rename_anchor (st : Store)
    (parent name newParent newName : String) (btp bte now grace : Int)
    (log : Bool) (caller : Option Caller)
    (hsafe : logSafe log caller)
    (hp : Store.btime st parent = some btp)
    (he : Store.btime st (pathJoin parent name) = some bte) :
    ((MutNode.Rename st parent name newParent newName now grace log caller).map
        Prod.fst = Except.ok Errno.ok ↔ now - btp < grace) ∧
    ((MutNode.Unlink st parent name now grace log caller).map
        Prod.fst = Except.ok Errno.ok ↔ now - bte < grace) := by
  have hpj : pathJoin parent "" = parent := by simp [pathJoin]
  obtain ⟨r, hr⟩ : ∃ r, Store.find st (pathJoin parent name) = some r := by
    unfold Store.btime at he
    cases hfind : Store.find st (pathJoin parent name) with
    | none => rw [hfind] at he; simp at he
    | some r => exact ⟨r, rfl⟩
  constructor
  · by_cases h : now - btp < grace
    · have hd : MutNode.deny st parent "" now grace log caller = Except.ok Errno.ok := by
        unfold MutNode.deny
        rw [hpj, hp]
        exact denyCore_allow now grace btp log caller hsafe h
      simp [MutNode.Rename, hd, loopbackRename, hr, h, Except.map]
    · have hd : MutNode.deny st parent "" now grace log caller =
          Except.ok Errno.eacces := by
        unfold MutNode.deny
        rw [hpj, hp]
        exact denyCore_deny now grace btp log caller hsafe h
      simp [MutNode.Rename, hd, h, Except.map]
  · by_cases h : now - bte < grace
    · have hd : MutNode.deny st parent name now grace log caller = Except.ok Errno.ok := by
        unfold MutNode.deny
        rw [he]
        exact denyCore_allow now grace bte log caller hsafe h
      simp [MutNode.Unlink, hd, loopbackUnlink, hr, h, Except.map]
    · have hd : MutNode.deny st parent name now grace log caller =
          Except.ok Errno.eacces := by
        unfold MutNode.deny
        rw [he]
        exact denyCore_deny now grace bte log caller hsafe h
      simp [MutNode.Unlink, hd, h, Except.map]

/-- Witness for the amended C6: entry `"d/x"` born at 0, parent `"d"`
born at 100, now 102, grace 5 — the rename is allowed (parent within
grace) while the unlink of the very same entry is denied (entry outside
grace). -/
theorem c6_amended_rename_anchor_witness :
    (MutNode.Rename [("d", ⟨[], 100⟩), ("d/x", ⟨[49], 0⟩)] "d" "x" "d" "y"
        102 5 false none).map Prod.fst = Except.ok Errno.ok ∧
    ¬ (MutNode.Unlink [("d", ⟨[], 100⟩), ("d/x", ⟨[49], 0⟩)] "d" "x"
        102 5 false none).map Prod.fst = Except.ok Errno.ok := by
  have h := c6_amended_rename_anchor [("d", ⟨[], 100⟩), ("d/x", ⟨[49], 0⟩)]
    "d" "x" "d" "y" 100 0 102 5 false none
    (by intro hx; simp at hx) (by decide) (by decide)
  exact ⟨h.1.mpr (by decide), fun hx => absurd (h.2.mp hx) (by decide)⟩

/-! ## Helper lemmas about the open path -/

lemma openSwitch_verdict (st : Store) (selfPath : String) (flags : Nat)
    (bt now grace : Int) (log : Bool) (caller : Option Caller)
    (hsafe : logSafe log caller) (hw : writeIntent flags = true)
    (hbt : Store.btime st selfPath = some bt) :
    MutNode.openSwitch st selfPath flags now grace log caller =
      if now - bt < grace then Except.ok (loopbackOpen st selfPath flags now)
      else Except.ok (Errno.eacces, st) := by
  have hpj : pathJoin selfPath "" = selfPath := by simp [pathJoin]
  have hd : MutNode.deny st selfPath "" now grace log caller =
      MutNode.denyCore (some bt) now grace log caller := by
    unfold MutNode.deny
    rw [hpj, hbt]
  by_cases h : now - bt < grace
  · simp [MutNode.openSwitch, hw, hd, denyCore_allow now grace bt log caller hsafe h, h]
  · simp [MutNode.openSwitch, hw, hd, denyCore_deny now grace bt log caller hsafe h, h]

lemma loopbackOpen_find_some (st : Store) (p : String) (flags : Nat)
    (now : Int) (r : FileRec) (hfind : Store.find st p = some r) :
    (loopbackOpen st p flags now).fst = Errno.ok ∧
    Store.btime (loopbackOpen st p flags now).snd p = some r.btime := by
  by_cases ht : flags &&& O_TRUNC ≠ 0
  · simp [loopbackOpen, hfind, ht, Store.btime_set_self]
  · simp [loopbackOpen, hfind, ht, Store.btime]

lemma loopbackOpen_missing_creat (st : Store) (p : String) (flags : Nat)
    (now : Int) (hfind : Store.find st p = none) (hc : flags &&& O_CREAT ≠ 0) :
    loopbackOpen st p flags now = (Errno.ok, Store.set st p ⟨[], now⟩) := by
  simp [loopbackOpen, hfind, hc]

/-- C5 amended: an open carrying the create flag and a write-intent flag
on a path absent from the backing store creates the object (the probe)
and then succeeds iff the grace decision allows the write — elapsed time
is 0, so allowed exactly when `0 < grace` and denied with grace 0; an
open carrying the create flag and a write-intent flag whose target
already exists is not treated as a creation but goes through the same
grace/deny decision on the existing object's creation time. -/
theorem c5_amended_create (st : Store) (selfPath : String) (flags : Nat)
    (now grace : Int) (log : Bool) (caller : Option Caller)
    (hsafe : logSafe log caller)
    (hc : flags &&& O_CREAT ≠ 0)
    (hw : writeIntent flags = true) :
    (Store.find st selfPath = none →
      (MutNode.Open st selfPath flags now grace log caller).map Prod.fst =
        Except.ok (if (0 : Int) < grace then Errno.ok else Errno.eacces)) ∧
    (∀ r : FileRec, Store.find st selfPath = some r →
      (MutNode.Open st selfPath flags now grace log caller).map Prod.fst =
        Except.ok (if now - r.btime < grace then Errno.ok else Errno.eacces)) := by
  constructor
  · intro hfind
    have hprobe := loopbackOpen_missing_creat st selfPath flags now hfind hc
    have h1 : MutNode.Open st selfPath flags now grace log caller =
        MutNode.openSwitch (Store.set st selfPath ⟨[], now⟩) selfPath flags
          now grace log caller := by
      simp [MutNode.Open, hc, hprobe]
    rw [h1, openSwitch_verdict _ _ _ now now grace log caller hsafe hw
      (by simpa using Store.btime_set_self st selfPath ⟨[], now⟩)]
    by_cases hg : (0 : Int) < grace
    · rw [if_pos (by omega : now - now < grace), if_pos hg]
      simp only [Except.map]
      exact congrArg Except.ok
        (loopbackOpen_find_some _ selfPath flags now _
          (Store.find_set_self st selfPath ⟨[], now⟩)).1
    · rw [if_neg (by omega : ¬ now - now < grace), if_neg hg]
      simp [Except.map]
  · intro r hfind
    obtain ⟨hfst, hbt1⟩ := loopbackOpen_find_some st selfPath flags now r hfind
    have h1 : MutNode.Open st selfPath flags now grace log caller =
        MutNode.openSwitch (loopbackOpen st selfPath flags now).snd selfPath flags
          now grace log caller := by
      simp [MutNode.Open, hc, hfst]
    obtain ⟨r1, hr1⟩ : ∃ r1,
        Store.find (loopbackOpen st selfPath flags now).snd selfPath = some r1 := by
      unfold Store.btime at hbt1
      cases hf : Store.find (loopbackOpen st selfPath flags now).snd selfPath with
      | none => rw [hf] at hbt1; simp at hbt1
      | some r1 => exact ⟨r1, rfl⟩
    rw [h1, openSwitch_verdict _ _ _ r.btime now grace log caller hsafe hw hbt1]
    by_cases hg : now - r.btime < grace
    · rw [if_pos hg, if_pos hg]
      simp only [Except.map]
      exact congrArg Except.ok
        (loopbackOpen_find_some _ selfPath flags now r1 hr1).1
    · rw [if_neg hg, if_neg hg]
      simp [Except.map]

/-- Witness for the amended C5: open with `O_CREAT|O_WRONLY` (65).  On a
missing path `"a"` with grace 5 the create succeeds; on the existing path
`"b"` born at 0 with now 10 and grace 5 the open is denied (outside
grace). -/
theorem c5_amended_create_witness :
    (MutNode.Open [("b", ⟨[50], 0⟩)] "a" 65 10 5 false none).map Prod.fst =
      Except.ok Errno.ok ∧
    (MutNode.Open [("b", ⟨[50], 0⟩)] "b" 65 10 5 false none).map Prod.fst =
      Except.ok Errno.eacces := by
  constructor
  · have h := (c5_amended_create [("b", ⟨[50], 0⟩)] "a" 65 10 5 false none
      (by intro hx; simp at hx) (by decide) (by decide)).1 (by decide)
    simpa using h
  · have h := (c5_amended_create [("b", ⟨[50], 0⟩)] "b" 65 10 5 false none
      (by intro hx; simp at hx) (by decide) (by decide)).2 ⟨[50], 0⟩ (by decide)
    simpa using h

/-! ## Mount configuration (main, option processing) -/

/-- The configuration `main` accumulates while scanning `-o` options:
the `fs.Options` booleans, the global `Grace` duration, the global `Log`
flag, and the kernel mount-option strings. -/
structure MOptions where
  debug : Bool := false
  nullPermissions : Bool := false
  allowOther : Bool := false
  log : Bool := false
  grace : Int := 0
  mountOptions : List String := []
  deriving DecidableEq, Repr

/-- One iteration of the option `switch` in `main`.  The error value is
a process exit code: a wrongly specified `grace=` aborts through
`log.Fatalf`, which exits with code 1.  `parseDur` abstracts Go's
`time.ParseDuration` (result in nanoseconds); unrecognized options fall
through unchanged. -/
def applyOpt (parseDur : String → Option Int) (acc : MOptions) (o : String) :
    Except Nat MOptions :=
  if o = "debug" then Except.ok { acc with debug := true }
  else if o = "null" then Except.ok { acc with nullPermissions := true }
  else if o = "allow_other" then
    Except.ok { acc with
      allowOther := true
      mountOptions := acc.mountOptions ++ ["default_permissions"] }
  else if o = "ro" then
    Except.ok { acc with mountOptions := acc.mountOptions ++ ["ro"] }
  else if o = "log" then Except.ok { acc with log := true }
  else if o.startsWith "grace=" then
    match o.splitOn "=" with
    | [_, v] =>
        match parseDur v with
        | some d => Except.ok { acc with grace := d }
        | none => Except.error 1
    | _ => Except.error 1
  else Except.ok acc

/-- The whole option loop of `main`. -/
def processOpts (parseDur : String → Option Int) :
    MOptions → List String → Except Nat MOptions
  | acc, [] => Except.ok acc
  | acc, o :: rest =>
      match applyOpt parseDur acc o with
      | Except.error e => Except.error e
      | Except.ok acc1 => processOpts parseDur acc1 rest

/-- Modelled from the spec: the Mount/Transport layer (external
collaborator, not under `src/`).  `main` only forwards `"ro"` into the
kernel mount options; a read-only mount then rejects every destructive
operation before it reaches the overlay ("If `cfg.readOnly`, deny
unconditionally"), surfaced as a denial. -/
def transportDestructive (cfg : MOptions) (handler : Except Crash Errno) :
    Except Crash Errno :=
  if "ro" ∈ cfg.mountOptions then Except.ok Errno.eacces else handler

lemma applyOpt_ro_mono (parseDur : String → Option Int) (acc acc1 : MOptions)
    (o : String) (h : applyOpt parseDur acc o = Except.ok acc1)
    (hro : "ro" ∈ acc.mountOptions) : "ro" ∈ acc1.mountOptions := by
  unfold applyOpt at h
  split_ifs at h
  · obtain rfl := Except.ok.inj h; simpa using hro
  · obtain rfl := Except.ok.inj h; simpa using hro
  · obtain rfl := Except.ok.inj h
    simp only [List.mem_append]
    exact Or.inl hro
  · obtain rfl := Except.ok.inj h
    simp only [List.mem_append]
    exact Or.inl hro
  · obtain rfl := Except.ok.inj h; simpa using hro
  · split at h
    · split at h
      · obtain rfl := Except.ok.inj h; simpa using hro
      · exact absurd h (by simp)
    · exact absurd h (by simp)
  · obtain rfl := Except.ok.inj h; simpa using hro

lemma applyOpt_ro (parseDur : String → Option Int) (acc : MOptions) :
    applyOpt parseDur acc "ro" =
      Except.ok { acc with mountOptions := acc.mountOptions ++ ["ro"] } := rfl

lemma processOpts_ro (parseDur : String → Option Int) :
    ∀ (opts : List String) (acc cfg : MOptions),
      processOpts parseDur acc opts = Except.ok cfg →
      ("ro" ∈ opts ∨ "ro" ∈ acc.mountOptions) → "ro" ∈ cfg.mountOptions := by
  intro opts
  induction opts with
  | nil =>
      intro acc cfg h hro
      simp only [processOpts] at h
      obtain rfl := Except.ok.inj h
      rcases hro with h1 | h1
      · simp at h1
      · exact h1
  | cons o rest ih =>
      intro acc cfg h hro
      unfold processOpts at h
      cases happ : applyOpt parseDur acc o with
      | error e => rw [happ] at h; exact absurd h (by simp)
      | ok acc1 =>
          rw [happ] at h
          apply ih acc1 cfg h
          rcases hro with h1 | h1
          · rcases List.mem_cons.mp h1 with h2 | h2
            · right
              rw [← h2, applyOpt_ro parseDur acc] at happ
              obtain rfl := Except.ok.inj happ
              simp only [List.mem_append]
              exact Or.inr (by simp)
            · exact Or.inl h2
          · exact Or.inr (applyOpt_ro_mono parseDur acc acc1 o happ h1)

/-- C3: when the mount options contain `ro`, the read-only mount denies
every destructive operation unconditionally — whatever the overlay's own
grace verdict would have been, even an Allow within a valid grace
window; the grace check does not apply. -/
theorem c3_readonly_override (parseDur : String → Option Int)
    (opts : List String) (cfg : MOptions) (st : Store)
    (nodePath name : String) (now : Int) (log : Bool) (caller : Option Caller)
    (hro : "ro" ∈ opts)
    (hok : processOpts parseDur {} opts = Except.ok cfg) :
    transportDestructive cfg
      (MutNode.deny st nodePath name now cfg.grace log caller) =
      Except.ok Errno.eacces := by
  have h := processOpts_ro parseDur opts {} cfg hok (Or.inl hro)
  simp [transportDestructive, h]

/-- Witness for C3: option list `["ro"]`; the object is inside its grace
window (`now - bt = -4 < 0 = grace`), so the overlay alone would allow,
yet the read-only mount denies. -/
theorem c3_readonly_override_witness :
    MutNode.deny [("f", ⟨[], 5⟩)] "f" "" 1 0 false none = Except.ok Errno.ok ∧
    transportDestructive { mountOptions := ["ro"] }
      (MutNode.deny [("f", ⟨[], 5⟩)] "f" "" 1
        ({ mountOptions := ["ro"] } : MOptions).grace false none) =
      Except.ok Errno.eacces :=
  ⟨rfl, c3_readonly_override (fun _ => none) ["ro"] { mountOptions := ["ro"] }
    [("f", ⟨[], 5⟩)] "f" "" 1 false none (by simp) rfl⟩

/-! ## The creation-time oracle (btime.go) -/

/-- `unix.STATX_BTIME`: the bit of `stx_mask` the kernel sets exactly
when the filesystem reported a birth (creation) time. -/
def STATX_BTIME : Nat := 0x800

/-- Result buffer of a successful `unix.Statx` call: the validity mask
and the three timestamps relevant here.  Per statx(2), a timestamp whose
mask bit is unset is zeroed: the filesystem does not support it. -/
structure StatxT where
  mask : Nat
  btimeSec : Int
  btimeNsec : Int
  mtimeSec : Int
  mtimeNsec : Int
  ctimeSec : Int
  ctimeNsec : Int
  deriving DecidableEq, Repr

/-- `btime` (btime.go): the host `Statx` outcome is passed as input
(`none` = the syscall itself failed).  On success the Go code returns
`time.Unix(statx.Btime.Sec, statx.Btime.Nsec)` unconditionally — it
never inspects `stx_mask` and never reads the modified or changed
timestamps.  Timestamps in nanoseconds. -/
def btime (statxRes : Option StatxT) : Option Int :=
  match statxRes with
  | none => none
  | some s => some (s.btimeSec * 1000000000 + s.btimeNsec)

/-- Counterexample to C8 as stated: a successful `statx` on a filesystem
that does not support birth time (mask bit `STATX_BTIME` unset, `Btime`
zeroed per statx(2)) makes the oracle return the epoch timestamp
`some 0` instead of reporting Unavailable (`none`). -/
theorem c8_mask_ignored_counterexample :
    (0x7FF : Nat) &&& STATX_BTIME = 0 ∧
    btime (some ⟨0x7FF, 0, 0, 5, 0, 7, 0⟩) = some 0 ∧
    btime (some ⟨0x7FF, 0, 0, 5, 0, 7, 0⟩) ≠ none :=
  ⟨by decide, rfl, by simp [btime]⟩

/-- C8 amended: the oracle reports Unavailable exactly when the `statx`
call itself fails; on any successful call it returns the `Btime` field —
including the zeroed epoch value when the filesystem does not support
birth time — and the result never depends on the modified (`Mtime`) or
changed (`Ctime`) timestamps. -/
theorem c8_amended_oracle (s t : StatxT)
    (hsec : s.btimeSec = t.btimeSec) (hnsec : s.btimeNsec = t.btimeNsec) :
    btime none = none ∧
    btime (some s) = some (s.btimeSec * 1000000000 + s.btimeNsec) ∧
    btime (some s) = btime (some t) := by
  refine ⟨rfl, rfl, ?_⟩
  simp [btime, hsec, hnsec]

/-- Witness for the amended C8: two statx buffers sharing the birth time
but with different modified/changed timestamps give the same result. -/
theorem c8_amended_oracle_witness :
    btime (some ⟨0xFFF, 3, 1, 5, 0, 7, 0⟩) =
      btime (some ⟨0xFFF, 3, 1, 99, 4, 42, 8⟩) :=
  (c8_amended_oracle ⟨0xFFF, 3, 1, 5, 0, 7, 0⟩ ⟨0xFFF, 3, 1, 99, 4, 42, 8⟩
    rfl rfl).2.2

/-! ## Process startup (main) -/

/-- The directory check of `main`'s argument loop.  `statIsDir`
abstracts `os.Stat`: `none` = stat error, `some b` = stat succeeded with
`IsDir() = b`.  Both failure arms go through `log.Fatalf`, which exits
the process with code 1. -/
def checkDir (statIsDir : String → Option Bool) (d : String) : Option Nat :=
  match statIsDir d with
  | none => some 1
  | some false => some 1
  | some true => none

/-- `main`'s startup checks: `some code` means the process exits with
that code before mounting; `none` means both path arguments are existing
directories and startup proceeds to the option loop and the mount. -/
def mainStartup (args : List String) (statIsDir : String → Option Bool) :
    Option Nat :=
  if args.length < 2 then some 2
  else
    match args with
    | a0 :: a1 :: _ =>
        (match checkDir statIsDir a0 with
         | some c => some c
         | none => checkDir statIsDir a1)
    | _ => none

/-- Counterexample to C9 as stated: with two path arguments of which the
first exists but is not a directory, the process exits through
`log.Fatalf` with code 1, not with the claimed code 2. -/
theorem c9_fatalf_exit_counterexample :
    mainStartup ["x", "y"] (fun _ => some false) = some 1 ∧ (1 : Nat) ≠ 2 :=
  ⟨rfl, by decide⟩

/-- C9 amended: the process exits with code 2 exactly when fewer than
two path arguments are supplied; an argument that cannot be stat'ed or
is not a directory exits with code 1 (via `log.Fatalf`); with two
existing directories, startup proceeds to the mount. -/
theorem c9_amended_exit_codes (args : List String)
    (statIsDir : String → Option Bool) :
    (args.length < 2 → mainStartup args statIsDir = some 2) ∧
    (∀ a0 a1 rest, args = a0 :: a1 :: rest →
      ((statIsDir a0 = none ∨ statIsDir a0 = some false) →
        mainStartup args statIsDir = some 1) ∧
      (statIsDir a0 = some true →
        (statIsDir a1 = none ∨ statIsDir a1 = some false) →
        mainStartup args statIsDir = some 1) ∧
      (statIsDir a0 = some true → statIsDir a1 = some true →
        mainStartup args statIsDir = none)) := by
  constructor
  · intro h
    simp [mainStartup, h]
  · rintro a0 a1 rest rfl
    have hlen : ¬ (a0 :: a1 :: rest).length < 2 := by
      simp only [List.length_cons]
      omega
    refine ⟨?_, ?_, ?_⟩
    · rintro (h | h) <;> simp [mainStartup, hlen, checkDir, h]
    · intro h0
      rintro (h | h) <;> simp [mainStartup, hlen, checkDir, h0, h]
    · intro h0 h1
      simp [mainStartup, hlen, checkDir, h0, h1]

/-- Witness for the amended C9: one argument exits 2; two existing
directories proceed to the mount. -/
theorem c9_amended_exit_codes_witness :
    mainStartup ["x"] (fun _ => some true) = some 2 ∧
    mainStartup ["x", "y"] (fun _ => some true) = none := by
  constructor
  · exact (c9_amended_exit_codes ["x"] (fun _ => some true)).1 (by decide)
  · exact ((c9_amended_exit_codes ["x", "y"] (fun _ => some true)).2 "x" "y" []
      rfl).2.2 rfl rfl
